import Mathlib

/-!
Verification of the gsc-exporter scripts: a shallow embedding of the
calendar-window generator, the paged metric fetcher, the per-month fetch
and per-site loops, the sort-key deriver, the yearly aggregation, and the
CSV/HTML output stages, with theorems settling the specification claims.
-/

namespace GscExporter

/-! ## Calendar model (datetime.date, dateutil.relativedelta)

Embeds the date arithmetic used by both analysis scripts:
  end_of_month = today.replace(day=1) - relativedelta(months=i-1) - timedelta(days=1)
  start_of_month = end_of_month.replace(day=1)
-/

/-- A calendar date, as Python datetime.date (year, month, day). -/
structure Date where
  year : Nat
  month : Nat
  day : Nat
deriving DecidableEq

/-- Gregorian leap-year rule, as Python calendar.isleap. -/
def isLeapYear (y : Nat) : Bool :=
  (y % 4 == 0 && y % 100 != 0) || (y % 400 == 0)

/-- Number of days in a calendar month. -/
def daysInMonth (y m : Nat) : Nat :=
  if m = 2 then (if isLeapYear y then 29 else 28)
  else if m = 4 ∨ m = 6 ∨ m = 9 ∨ m = 11 then 30
  else 31

/-- Subtracting relativedelta(months=k) from a date: shift the month index
back by k and clamp the day to the target month's length.  Modelled for
dates whose month index 12*year + (month-1) is at least k (below that,
Python's date range is exceeded and the library raises). -/
def subMonths (d : Date) (k : Nat) : Date :=
  let t := 12 * d.year + (d.month - 1) - k
  let y := t / 12
  let m := t % 12 + 1
  { year := y, month := m, day := min d.day (daysInMonth y m) }

/-- Subtracting timedelta(days=1) from a date. -/
def prevDay (d : Date) : Date :=
  if 1 < d.day then { d with day := d.day - 1 }
  else if 1 < d.month then { year := d.year, month := d.month - 1, day := daysInMonth d.year (d.month - 1) }
  else { year := d.year - 1, month := 12, day := 31 }

/-- The monthly window for 1-based index i, exactly as computed in the main
loops of account-wide-analysis.py and queries-pages-analysis.py:
  end_of_month = today.replace(day=1) - relativedelta(months=i-1) - timedelta(days=1)
  start_of_month = end_of_month.replace(day=1)
Returns (start_of_month, end_of_month). -/
def monthlyWindow (today : Date) (i : Nat) : Date × Date :=
  let end_of_month := prevDay (subMonths { today with day := 1 } (i - 1))
  let start_of_month := { end_of_month with day := 1 }
  (start_of_month, end_of_month)

/-- Specification-side helper: the (year, month) of the calendar month k
months before the month of the given (year, month).  Window i of the claim
is the month ending i-1 months before the start of the current month, i.e.
the month i months back. -/
def monthsBefore (y m k : Nat) : Nat × Nat :=
  let t := 12 * y + (m - 1) - k
  (t / 12, t % 12 + 1)

theorem one_le_daysInMonth (y m : Nat) : 1 ≤ daysInMonth y m := by
  unfold daysInMonth
  split
  · split <;> omega
  · split <;> omega

theorem daysInMonth_twelve (y : Nat) : daysInMonth y 12 = 31 := by
  unfold daysInMonth
  norm_num

/-- C1: for every reference date and every index i from 1 to 16 (in fact any
i with enough months of calendar before it), the monthly window generator
produces the window whose month is i months before the current month — the
month ending i-1 months before the start of the current month — with start
the first day and end the last day of that month, by calendar arithmetic. -/
theorem monthlyWindow_spec (today : Date) (i : Nat)
    (hm1 : 1 ≤ today.month) (hm2 : today.month ≤ 12)
    (hi1 : 1 ≤ i) (hi2 : i ≤ 16)
    (hy : 17 ≤ 12 * today.year + (today.month - 1)) :
    monthlyWindow today i =
      (⟨(monthsBefore today.year today.month i).1, (monthsBefore today.year today.month i).2, 1⟩,
       ⟨(monthsBefore today.year today.month i).1, (monthsBefore today.year today.month i).2,
        daysInMonth (monthsBefore today.year today.month i).1 (monthsBefore today.year today.month i).2⟩) := by
  obtain ⟨y, m, d⟩ := today
  simp only [Date.mk.injEq] at *
  have hdim : ∀ y' m', min 1 (daysInMonth y' m') = 1 :=
    fun y' m' => Nat.min_eq_left (one_le_daysInMonth y' m')
  simp only [monthlyWindow, subMonths, prevDay, monthsBefore, hdim]
  split_ifs with h1 h2
  · exact absurd h1 (by omega)
  · simp only [Prod.mk.injEq, Date.mk.injEq]
    refine ⟨⟨by omega, by omega, trivial⟩, by omega, by omega, ?_⟩
    congr 1 <;> omega
  · simp only [Prod.mk.injEq, Date.mk.injEq]
    have h12 : (12 * y + (m - 1) - i) % 12 + 1 = 12 := by omega
    refine ⟨⟨by omega, by omega, trivial⟩, by omega, by omega, ?_⟩
    rw [h12, daysInMonth_twelve]

/-- Witness for C1, covering the claim's concrete scenario: with reference
date 2024-03-15, window 1 is 2024-02-01 .. 2024-02-29 (leap year) and
window 13 is 2023-02-01 .. 2023-02-28. -/
theorem monthlyWindow_spec_witness :
    monthlyWindow ⟨2024, 3, 15⟩ 1 = (⟨2024, 2, 1⟩, ⟨2024, 2, 29⟩) ∧
    monthlyWindow ⟨2024, 3, 15⟩ 13 = (⟨2023, 2, 1⟩, ⟨2023, 2, 28⟩) :=
  ⟨(monthlyWindow_spec ⟨2024, 3, 15⟩ 1 (by decide) (by decide) (by decide) (by decide)
      (by decide)).trans (by decide),
   (monthlyWindow_spec ⟨2024, 3, 15⟩ 13 (by decide) (by decide) (by decide) (by decide)
      (by decide)).trans (by decide)⟩

/-! ## Paged metric fetcher (generate_gsc_wrapped.py, get_gsc_data)

The underlying API is modelled by the full row list of the query result
(rows) and a transport/authorization failure predicate on offsets (errs):
a call with startRow = o either raises (errs o) or returns the slice
(rows.drop o).take row_limit, with the rows key absent when the slice is
empty.  The loop is embedded with explicit fuel; rows.length + 1 steps
always suffice, as proved below. -/

/-- One run of the while-loop of get_gsc_data from a given start_row, with
fuel bounding the number of iterations.  Returns the fetch result (none for
a failed fetch, some data otherwise, as Python None versus a list) together
with the number of API calls issued. -/
def getGscDataLoop (rows : List α) (errs : Nat → Bool) (row_limit : Nat) :
    Nat → Nat → Option (List α) × Nat
  | 0, _ => (none, 0)
  | fuel + 1, start_row =>
    if errs start_row then (none, 1)
    else
      let page := (rows.drop start_row).take row_limit
      if page.isEmpty then (some [], 1)
      else if page.length < row_limit then (some page, 1)
      else
        match getGscDataLoop rows errs row_limit fuel (start_row + row_limit) with
        | (none, n) => (none, n + 1)
        | (some rest, n) => (some (page ++ rest), n + 1)

/-- get_gsc_data: fetches all rows for a query, paging by row_limit from
start_row 0; an HttpError or unexpected exception at any call makes the
whole fetch return None. -/
def get_gsc_data (rows : List α) (errs : Nat → Bool) (row_limit : Nat) :
    Option (List α) × Nat :=
  getGscDataLoop rows errs row_limit (rows.length + 1) 0

theorem getGscDataLoop_no_errors (rows : List α) (P : Nat) (hP : 0 < P) :
    ∀ fuel start_row, rows.length - start_row < fuel →
      getGscDataLoop rows (fun _ => false) P fuel start_row =
        (some (rows.drop start_row), (rows.length - start_row) / P + 1) := by
  intro fuel
  induction fuel with
  | zero => intro s h; omega
  | succ n ih =>
    intro s h
    by_cases hs : rows.length ≤ s
    · have hdrop : rows.drop s = [] := List.drop_eq_nil_of_le hs
      have hrem : rows.length - s = 0 := by omega
      simp [getGscDataLoop, hdrop, hrem, Nat.zero_div]
    · push_neg at hs
      have hlen : ((rows.drop s).take P).length = min P (rows.length - s) := by
        simp [List.length_take, List.length_drop]
      by_cases hshort : rows.length - s < P
      · have htake : (rows.drop s).take P = rows.drop s := by
          apply List.take_of_length_le
          simp [List.length_drop]; omega
        have hdiv : (rows.length - s) / P = 0 := Nat.div_eq_of_lt hshort
        simp [getGscDataLoop, htake, List.isEmpty_iff, List.drop_eq_nil_iff]
        rw [if_neg (by omega : ¬ rows.length ≤ s), if_pos hshort]
        simp [hdiv]
      · push_neg at hshort
        have hfull : ((rows.drop s).take P).length = P := by rw [hlen]; omega
        have hc1 : ((rows.drop s).take P).isEmpty = false := by
          rw [List.isEmpty_eq_false]
          intro hnil
          rw [hnil] at hfull
          simp at hfull
          omega
        have hrec := ih (s + P) (by omega)
        have hdropdrop : rows.drop (s + P) = (rows.drop s).drop P := by
          rw [List.drop_drop, Nat.add_comm]
        have hsplit : (rows.drop s).take P ++ rows.drop (s + P) = rows.drop s := by
          rw [hdropdrop]
          exact List.take_append_drop P (rows.drop s)
        obtain ⟨q, hq⟩ : ∃ q, rows.length - s = q + P := ⟨rows.length - s - P, by omega⟩
        have hcount : (rows.length - (s + P)) / P + 1 + 1 = (rows.length - s) / P + 1 := by
          have h1 : rows.length - (s + P) = q := by omega
          rw [h1, hq, Nat.add_div_right q hP]
        simp only [getGscDataLoop, hc1, Bool.false_eq_true, if_false, hfull, lt_irrefl, hrec]
        rw [hsplit, hcount]

/-- C2: for every paged source with page size P > 0 and total row count R,
get_gsc_data returns exactly the R source rows in order (no duplicates, no
gaps) and issues R / P + 1 calls, which equals ceil(R/P) when P does not
divide R and ceil(R/P) + 1 when R is an exact multiple of P (the source
then requires an empty terminal page to signal exhaustion). -/
theorem get_gsc_data_pagination (rows : List α) (P : Nat) (hP : 0 < P) :
    (get_gsc_data rows (fun _ => false) P).1 = some rows ∧
    (get_gsc_data rows (fun _ => false) P).2 = rows.length / P + 1 ∧
    (rows.length % P ≠ 0 →
      (get_gsc_data rows (fun _ => false) P).2 = (rows.length + P - 1) / P) ∧
    (rows.length % P = 0 →
      (get_gsc_data rows (fun _ => false) P).2 = rows.length / P + 1) := by
  have h := getGscDataLoop_no_errors rows P hP (rows.length + 1) 0 (by omega)
  unfold get_gsc_data
  rw [h]
  simp only [Nat.sub_zero, List.drop_zero]
  refine ⟨trivial, trivial, ?_, fun _ => trivial⟩
  intro hmod
  have hd := Nat.div_add_mod rows.length P
  have hrP : rows.length % P < P := Nat.mod_lt _ hP
  set q := rows.length / P with hq
  set r := rows.length % P with hr
  have h1 : rows.length + P - 1 = P * (q + 1) + (r - 1) := by
    rw [Nat.mul_add, Nat.mul_one]
    omega
  rw [h1, Nat.mul_add_div hP, Nat.div_eq_of_lt (by omega : r - 1 < P)]

/-- Witness for C2: a source of 7 rows with page limit 3 is returned whole
in ceil(7/3) = 3 calls. -/
theorem get_gsc_data_pagination_witness :
    (get_gsc_data [10, 11, 12, 13, 14, 15, 16] (fun _ => false) 3).1 =
      some [10, 11, 12, 13, 14, 15, 16] ∧
    (get_gsc_data [10, 11, 12, 13, 14, 15, 16] (fun _ => false) 3).2 = 3 :=
  ⟨(get_gsc_data_pagination [10, 11, 12, 13, 14, 15, 16] 3 (by decide)).1,
   ((get_gsc_data_pagination [10, 11, 12, 13, 14, 15, 16] 3 (by decide)).2.1).trans
     (by decide)⟩

theorem getGscDataLoop_none_or_all (rows : List α) (errs : Nat → Bool) (P : Nat)
    (hP : 0 < P) :
    ∀ fuel start_row, rows.length - start_row < fuel →
      (getGscDataLoop rows errs P fuel start_row).1 = none ∨
      (getGscDataLoop rows errs P fuel start_row).1 = some (rows.drop start_row) := by
  intro fuel
  induction fuel with
  | zero => intro s h; omega
  | succ n ih =>
    intro s h
    by_cases he : errs s
    · left
      simp [getGscDataLoop, he]
    · by_cases hs : rows.length ≤ s
      · right
        have hdrop : rows.drop s = [] := List.drop_eq_nil_of_le hs
        simp [getGscDataLoop, he, hdrop]
      · push_neg at hs
        have hlen : ((rows.drop s).take P).length = min P (rows.length - s) := by
          simp [List.length_take, List.length_drop]
        by_cases hshort : rows.length - s < P
        · right
          have htake : (rows.drop s).take P = rows.drop s := by
            apply List.take_of_length_le
            simp [List.length_drop]; omega
          simp [getGscDataLoop, he, htake, List.isEmpty_iff, List.drop_eq_nil_iff]
          rw [if_neg (by omega : ¬ rows.length ≤ s), if_pos hshort]
        · push_neg at hshort
          have hfull : ((rows.drop s).take P).length = P := by rw [hlen]; omega
          have hc1 : ((rows.drop s).take P).isEmpty = false := by
            rw [List.isEmpty_eq_false]
            intro hnil
            rw [hnil] at hfull
            simp at hfull
            omega
          have hdropdrop : rows.drop (s + P) = (rows.drop s).drop P := by
            rw [List.drop_drop, Nat.add_comm]
          have hsplit : (rows.drop s).take P ++ rows.drop (s + P) = rows.drop s := by
            rw [hdropdrop]
            exact List.take_append_drop P (rows.drop s)
          have hrec := ih (s + P) (by omega)
          simp only [getGscDataLoop, he, Bool.false_eq_true, if_false, hc1, hfull, lt_irrefl]
          rcases hval : getGscDataLoop rows errs P n (s + P) with ⟨o, c⟩
          rw [hval] at hrec
          simp only at hrec
          rcases o with _ | rest
          · left
            simp
          · right
            rcases hrec with hrec | hrec
            · exact absurd hrec (by simp)
            · have : rest = rows.drop (s + P) := by
                injection hrec
              subst this
              simp [hsplit]

theorem getGscDataLoop_err (rows : List α) (errs : Nat → Bool) (P : Nat) (hP : 0 < P) :
    ∀ k fuel start_row, rows.length - start_row < fuel →
      (∀ j < k, errs (start_row + j * P) = false ∧ start_row + (j + 1) * P ≤ rows.length) →
      errs (start_row + k * P) = true →
      (getGscDataLoop rows errs P fuel start_row).1 = none := by
  intro k
  induction k with
  | zero =>
    intro fuel s hfuel _ herr
    cases fuel with
    | zero => omega
    | succ n =>
      simp only [Nat.zero_mul, Nat.add_zero] at herr
      simp [getGscDataLoop, herr]
  | succ k ih =>
    intro fuel s hfuel hpre herr
    cases fuel with
    | zero => omega
    | succ n =>
      obtain ⟨hs0, hsP⟩ := hpre 0 (by omega)
      simp only [Nat.zero_mul, Nat.add_zero, Nat.one_mul] at hs0 hsP
      have hfull : ((rows.drop s).take P).length = P := by
        simp only [List.length_take, List.length_drop]
        omega
      have hc1 : ((rows.drop s).take P).isEmpty = false := by
        rw [List.isEmpty_eq_false]
        intro hnil
        rw [hnil] at hfull
        simp at hfull
        omega
      have hrec : (getGscDataLoop rows errs P n (s + P)).1 = none := by
        refine ih n (s + P) (by omega) ?_ ?_
        · intro j hj
          obtain ⟨h1, h2⟩ := hpre (j + 1) (by omega)
          rw [Nat.succ_mul] at h1
          constructor
          · rw [show s + P + j * P = s + (j * P + P) by omega]
            exact h1
          · simp only [Nat.succ_mul] at h2 ⊢
            omega
        · rw [show s + P + k * P = s + (k * P + P) by omega, ← Nat.succ_mul]
          exact herr
      simp only [getGscDataLoop, hs0, Bool.false_eq_true, if_false, hc1, hfull, lt_irrefl]
      rcases hval : getGscDataLoop rows errs P n (s + P) with ⟨o, c⟩
      rw [hval] at hrec
      simp only at hrec
      subst hrec
      simp

/-- C3: for every (site, window) fetch with page limit P > 0, a transport
or authorization error at any reached page request — the k-th call, made
after k error-free full pages — makes the paged fetcher report the whole
fetch as None, discarding the pages already accumulated; for any error
pattern the result is None or the complete row set and never a proper
partial one; an error-free fetch returns the complete row set; and a
caller can tell a failed fetch (None) apart from a query matching zero
rows (an empty list). -/
theorem get_gsc_data_no_partial (rows : List α) (errs errs2 : Nat → Bool) (P k : Nat)
    (hP : 0 < P)
    (hpre : ∀ j < k, errs (j * P) = false ∧ (j + 1) * P ≤ rows.length)
    (herr : errs (k * P) = true) :
    (get_gsc_data rows errs P).1 = none ∧
    ((get_gsc_data rows errs2 P).1 = none ∨ (get_gsc_data rows errs2 P).1 = some rows) ∧
    (get_gsc_data rows (fun _ => false) P).1 = some rows ∧
    (get_gsc_data ([] : List α) (fun _ => true) P).1 = none ∧
    (get_gsc_data ([] : List α) (fun _ => false) P).1 = some [] ∧
    (none : Option (List α)) ≠ some [] := by
  refine ⟨?_, ?_, ?_, ?_, ?_, by simp⟩
  · refine getGscDataLoop_err rows errs P hP k (rows.length + 1) 0 (by omega) ?_ ?_
    · intro j hj
      simpa using hpre j hj
    · simpa using herr
  · have h := getGscDataLoop_none_or_all rows errs2 P hP (rows.length + 1) 0 (by omega)
    rw [List.drop_zero] at h
    exact h
  · have h := getGscDataLoop_no_errors rows P hP (rows.length + 1) 0 (by omega)
    unfold get_gsc_data
    rw [h, List.drop_zero]
  · simp [get_gsc_data, getGscDataLoop]
  · simp [get_gsc_data, getGscDataLoop, List.take_nil]

/-- Witness for C3: rows 1..6 with page limit 3 and a transport error at
offset 3 — the second call, reached after one error-free full page — yield
a None fetch result, not the partial [1, 2, 3]; with no errors the same
fetch returns all six rows, and on a zero-row query it returns an empty
list, distinct from None. -/
theorem get_gsc_data_no_partial_witness :
    (get_gsc_data [1, 2, 3, 4, 5, 6] (fun o => o == 3) 3).1 = none ∧
    ((get_gsc_data [1, 2, 3, 4, 5, 6] (fun _ => false) 3).1 = none ∨
      (get_gsc_data [1, 2, 3, 4, 5, 6] (fun _ => false) 3).1 = some [1, 2, 3, 4, 5, 6]) ∧
    (get_gsc_data [1, 2, 3, 4, 5, 6] (fun _ => false) 3).1 = some [1, 2, 3, 4, 5, 6] ∧
    (get_gsc_data ([] : List Nat) (fun _ => true) 3).1 = none ∧
    (get_gsc_data ([] : List Nat) (fun _ => false) 3).1 = some [] ∧
    (none : Option (List Nat)) ≠ some [] :=
  get_gsc_data_no_partial [1, 2, 3, 4, 5, 6] (fun o => o == 3) (fun _ => false) 3 1
    (by decide) (by decide) (by decide)

/-! ## Per-month fetch and per-site loops
(queries-pages-analysis.py and account-wide-analysis.py)

A single searchanalytics query for a window is modelled by its response:
either a rows list, a response without a rows key, or an HttpError with a
status code. -/

/-- The summary row of an undimensioned searchanalytics response. -/
structure PerfRow where
  clicks : Nat
  impressions : Nat
  ctr : Rat
  position : Rat
deriving DecidableEq

/-- Outcome of one undimensioned totals query.  The rows constructor keeps
the first row separately: the API returns at least one row whenever the
rows key is present, and the code indexes rows[0]. -/
inductive QueryResult (ρ : Type) where
  | rows (first : ρ) (more : List ρ)
  | noRows
  | err (status : Nat)
deriving DecidableEq

/-- Outcome of one dimension-limited sub-query (dimensions=[query] or
[page], rowLimit 5000): a rows list of the given length, a response
without a rows key, or an HttpError.  Only the length is used. -/
inductive SubResult where
  | rows (n : Nat)
  | noRows
  | err (status : Nat)
deriving DecidableEq

namespace QueriesPages

/-- The unique count extracted from a sub-query in
get_monthly_performance_data of queries-pages-analysis.py: the count is
initialised to 0, set to len(rows) when the response has a rows key, and
left at 0 when the rows key is absent or the call raises HttpError (which
is caught with a warning). -/
def uniqueCount : SubResult → Nat
  | .rows n => n
  | .noRows => 0
  | .err _ => 0

/-- Result of get_monthly_performance_data in queries-pages-analysis.py:
the Python function returns the string PERMISSION_DENIED, None, or a dict
of the totals row plus the two unique counts. -/
inductive MonthFetch where
  | permissionDenied
  | noData
  | row (r : PerfRow) (queries pages : Nat)
deriving DecidableEq

/-- get_monthly_performance_data (queries-pages-analysis.py): runs the
totals query; on HttpError status 403 returns PERMISSION_DENIED, on any
other HttpError (400/404 or otherwise) returns None, on a response without
rows returns None; otherwise returns the first totals row merged with the
two sub-query unique counts (each 0 when its sub-query failed). -/
def get_monthly_performance_data (totals : QueryResult PerfRow)
    (queriesSub pagesSub : SubResult) : MonthFetch :=
  match totals with
  | .err s => if s = 403 then .permissionDenied else .noData
  | .noRows => .noData
  | .rows first _ => .row first (uniqueCount queriesSub) (uniqueCount pagesSub)

/-- The per-site window loop of main() in queries-pages-analysis.py over a
given list of window indices: each iteration calls the fetch for its
window; PERMISSION_DENIED breaks out of the loop, a truthy result is
appended to all_data, None is skipped.  Returns (window indices for which
a fetch call was made, collected rows). -/
def siteLoop (fetch : Nat → MonthFetch) : List Nat → List Nat × List (Nat × PerfRow × Nat × Nat)
  | [] => ([], [])
  | i :: rest =>
    match fetch i with
    | .permissionDenied => ([i], [])
    | .noData =>
      let (c, r) := siteLoop fetch rest
      (i :: c, r)
    | .row p q pg =>
      let (c, r) := siteLoop fetch rest
      (i :: c, (i, p, q, pg) :: r)

end QueriesPages

/-- The 16 window indices of the analysis loops, range(1, 17). -/
def windowIndices : List Nat := List.range' 1 16

namespace AccountWide

/-- get_monthly_performance_data (account-wide-analysis.py): returns the
first row when the response has a rows key and None otherwise; every
HttpError — including a 403 permission error — is caught, logged and turned
into None.  There is no PERMISSION_DENIED signal in this script. -/
def get_monthly_performance_data (totals : QueryResult PerfRow) : Option PerfRow :=
  match totals with
  | .rows first _ => some first
  | .noRows => none
  | .err _ => none

/-- The per-site window loop of main() in account-wide-analysis.py over a
given list of window indices: every window is fetched unconditionally; a
truthy result is appended to all_data, None is skipped.  Returns (window
indices for which a fetch call was made, collected rows). -/
def siteLoop (fetch : Nat → Option PerfRow) : List Nat → List Nat × List (Nat × PerfRow)
  | [] => ([], [])
  | i :: rest =>
    let (c, r) := siteLoop fetch rest
    match fetch i with
    | some d => (i :: c, (i, d) :: r)
    | none => (i :: c, r)

/-- The multi-site driver loop of main() in account-wide-analysis.py: the
sites are processed one after another, each contributing its collected rows
to all_data; no failure for one site stops the others. -/
def runAllSites (sites : List String) (fetch : String → Nat → Option PerfRow)
    (is : List Nat) : List (String × Nat × PerfRow) :=
  match sites with
  | [] => []
  | s :: rest => ((siteLoop (fetch s) is).2.map (fun e => (s, e))) ++ runAllSites rest fetch is

end AccountWide

/-- C4 (amended, queries-pages-analysis.py): in the queries-pages per-site
loop, the first permission-denied window ends the loop for that site: the
fetch calls made are exactly the windows up to and including the denied one
(in particular the denied window is fetched once and never retried), and
none of the later windows is called. -/
theorem qp_denied_short_circuits (fetch : Nat → QueriesPages.MonthFetch)
    (is₁ is₂ : List Nat) (k : Nat)
    (h1 : ∀ j ∈ is₁, fetch j ≠ QueriesPages.MonthFetch.permissionDenied)
    (hk : fetch k = QueriesPages.MonthFetch.permissionDenied) :
    (QueriesPages.siteLoop fetch (is₁ ++ k :: is₂)).1 = is₁ ++ [k] ∧ k ∉ is₁ := by
  constructor
  · induction is₁ with
    | nil => simp [QueriesPages.siteLoop, hk]
    | cons i t ih =>
      have hi : fetch i ≠ QueriesPages.MonthFetch.permissionDenied :=
        h1 i (List.mem_cons_self i t)
      have ih' := ih (fun j hj => h1 j (List.mem_cons_of_mem i hj))
      cases hfi : fetch i with
      | permissionDenied => exact absurd hfi hi
      | noData => simp [QueriesPages.siteLoop, hfi, ih']
      | row p q pg => simp [QueriesPages.siteLoop, hfi, ih']
  · intro hmem
    exact h1 k hmem hk

/-- Witness for C4: windows 1 and 2 fetch without a permission error,
window 3 is permission-denied, and the loop over the 16 windows stops
after the call for window 3. -/
theorem qp_denied_short_circuits_witness :
    (QueriesPages.siteLoop
        (fun i => if i = 3 then QueriesPages.MonthFetch.permissionDenied
                  else QueriesPages.MonthFetch.noData)
        ([1, 2] ++ 3 :: [4, 5, 6, 7, 8, 9, 10, 11, 12, 13, 14, 15, 16])).1 =
      [1, 2] ++ [3] ∧ 3 ∉ [1, 2] :=
  qp_denied_short_circuits
    (fun i => if i = 3 then QueriesPages.MonthFetch.permissionDenied
              else QueriesPages.MonthFetch.noData)
    [1, 2] [4, 5, 6, 7, 8, 9, 10, 11, 12, 13, 14, 15, 16] 3 (by decide) (by decide)

/-- Counterexample to C4 as stated: in account-wide-analysis.py a
permission-denied (HTTP 403) response is caught like any other HttpError
and turned into None, so after a 403 on window 1 the loop still issues API
calls for all 15 remaining windows of the same site: window 2 is called,
and the full call list is all 16 windows. -/
theorem aw_continues_after_403 :
    AccountWide.get_monthly_performance_data (QueryResult.err 403) = none ∧
    (AccountWide.siteLoop
        (fun _ => AccountWide.get_monthly_performance_data (QueryResult.err 403))
        windowIndices).1 = windowIndices ∧
    2 ∈ (AccountWide.siteLoop
        (fun _ => AccountWide.get_monthly_performance_data (QueryResult.err 403))
        windowIndices).1 := by
  refine ⟨rfl, ?_, ?_⟩ <;> decide

/-- C8: failed or empty window fetches never contribute a row (the row for
such a (site, month) is absent, not zero-filled), and the run continues:
every queries-pages row comes from a fetch that returned data; the
account-wide loop calls every window regardless of earlier failures and
keeps exactly the successful rows; the multi-site driver processes every
site; and the queries-pages loop reaches every window as long as no window
was permission-denied. -/
theorem rows_absent_and_run_continues
    (qfetch : Nat → QueriesPages.MonthFetch) (afetch : Nat → Option PerfRow)
    (sfetch : String → Nat → Option PerfRow)
    (is : List Nat) (sites : List String) (e : Nat × PerfRow × Nat × Nat)
    (s : String) (i : Nat) (r : PerfRow)
    (he : e ∈ (QueriesPages.siteLoop qfetch is).2)
    (hnd : ∀ j ∈ is, qfetch j ≠ QueriesPages.MonthFetch.permissionDenied) :
    qfetch e.1 = QueriesPages.MonthFetch.row e.2.1 e.2.2.1 e.2.2.2 ∧
    (AccountWide.siteLoop afetch is).1 = is ∧
    ((i, r) ∈ (AccountWide.siteLoop afetch is).2 ↔ i ∈ is ∧ afetch i = some r) ∧
    ((s, i, r) ∈ AccountWide.runAllSites sites sfetch is ↔
      s ∈ sites ∧ (i, r) ∈ (AccountWide.siteLoop (sfetch s) is).2) ∧
    (QueriesPages.siteLoop qfetch is).1 = is := by
  refine ⟨?_, ?_, ?_, ?_, ?_⟩
  · clear hnd
    induction is with
    | nil => simp [QueriesPages.siteLoop] at he
    | cons j t ih =>
      cases hfj : qfetch j with
      | permissionDenied =>
        rw [QueriesPages.siteLoop, hfj] at he
        simp at he
      | noData =>
        rw [QueriesPages.siteLoop, hfj] at he
        exact ih he
      | row p q pg =>
        rw [QueriesPages.siteLoop, hfj] at he
        simp only [List.mem_cons] at he
        rcases he with he | he
        · subst he
          simpa using hfj
        · exact ih he
  · clear he hnd
    induction is with
    | nil => rfl
    | cons j t ih =>
      rw [AccountWide.siteLoop]
      cases afetch j <;> simp [ih]
  · clear he hnd
    induction is with
    | nil => simp [AccountWide.siteLoop]
    | cons j t ih =>
      rw [AccountWide.siteLoop]
      cases hfj : afetch j with
      | none =>
        simp only [List.mem_cons, ih]
        constructor
        · rintro ⟨hm, hf⟩
          exact ⟨Or.inr hm, hf⟩
        · rintro ⟨hm | hm, hf⟩
          · subst hm
            rw [hf] at hfj
            cases hfj
          · exact ⟨hm, hf⟩
      | some d =>
        simp only [List.mem_cons, ih, Prod.mk.injEq]
        constructor
        · rintro (⟨h1, h2⟩ | ⟨hm, hf⟩)
          · subst h1; subst h2
            exact ⟨Or.inl rfl, hfj⟩
          · exact ⟨Or.inr hm, hf⟩
        · rintro ⟨hm | hm, hf⟩
          · subst hm
            rw [hf] at hfj
            injection hfj with hd
            exact Or.inl ⟨rfl, hd⟩
          · exact Or.inr ⟨hm, hf⟩
  · clear he hnd
    induction sites with
    | nil => simp [AccountWide.runAllSites]
    | cons s0 rest ih =>
      rw [AccountWide.runAllSites]
      simp only [List.mem_append, List.mem_map, ih, List.mem_cons]
      constructor
      · rintro (⟨e0, he0, heq⟩ | ⟨hm, hr⟩)
        · obtain ⟨h1, h2⟩ : s = s0 ∧ (i, r) = e0 := by
            cases heq
            exact ⟨rfl, rfl⟩
          subst h1
          rw [h2]
          exact ⟨Or.inl rfl, he0⟩
        · exact ⟨Or.inr hm, hr⟩
      · rintro ⟨hm | hm, hr⟩
        · subst hm
          exact Or.inl ⟨(i, r), hr, rfl⟩
        · exact Or.inr ⟨hm, hr⟩
  · clear he
    induction is with
    | nil => rfl
    | cons j t ih =>
      have hj : qfetch j ≠ QueriesPages.MonthFetch.permissionDenied :=
        hnd j (List.mem_cons_self j t)
      have ih' := ih (fun x hx => hnd x (List.mem_cons_of_mem j hx))
      cases hfj : qfetch j with
      | permissionDenied => exact absurd hfj hj
      | noData => simp [QueriesPages.siteLoop, hfj, ih']
      | row p q pg => simp [QueriesPages.siteLoop, hfj, ih']

/-- Witness for C8: a concrete site where window 1 has no data, window 2
returns a row and window 3 has no data: the collected row for window 2 is
present, there is no row for windows 1 and 3, and all three windows were
called; the account-wide loop and multi-site driver behave likewise. -/
theorem rows_absent_and_run_continues_witness :
    (fun j => if j = 2 then QueriesPages.MonthFetch.row ⟨5, 10, 0, 3⟩ 7 4
              else QueriesPages.MonthFetch.noData) (2 : Nat) =
      QueriesPages.MonthFetch.row
        ((2, (⟨5, 10, 0, 3⟩ : PerfRow), 7, 4) : Nat × PerfRow × Nat × Nat).2.1
        ((2, (⟨5, 10, 0, 3⟩ : PerfRow), 7, 4) : Nat × PerfRow × Nat × Nat).2.2.1
        ((2, (⟨5, 10, 0, 3⟩ : PerfRow), 7, 4) : Nat × PerfRow × Nat × Nat).2.2.2 ∧
    (AccountWide.siteLoop (fun j => if j = 2 then some (⟨5, 10, 0, 3⟩ : PerfRow) else none)
      [1, 2, 3]).1 = [1, 2, 3] ∧
    ((2, (⟨5, 10, 0, 3⟩ : PerfRow)) ∈
        (AccountWide.siteLoop (fun j => if j = 2 then some (⟨5, 10, 0, 3⟩ : PerfRow) else none)
          [1, 2, 3]).2 ↔
      2 ∈ [1, 2, 3] ∧
        (fun j => if j = 2 then some (⟨5, 10, 0, 3⟩ : PerfRow) else none) 2 =
          some (⟨5, 10, 0, 3⟩ : PerfRow)) ∧
    (("a", 2, (⟨5, 10, 0, 3⟩ : PerfRow)) ∈
        AccountWide.runAllSites ["a", "b"]
          (fun _ j => if j = 2 then some (⟨5, 10, 0, 3⟩ : PerfRow) else none) [1, 2, 3] ↔
      "a" ∈ ["a", "b"] ∧
        (2, (⟨5, 10, 0, 3⟩ : PerfRow)) ∈
          (AccountWide.siteLoop
            (fun j => if j = 2 then some (⟨5, 10, 0, 3⟩ : PerfRow) else none) [1, 2, 3]).2) ∧
    (QueriesPages.siteLoop
        (fun j => if j = 2 then QueriesPages.MonthFetch.row ⟨5, 10, 0, 3⟩ 7 4
                  else QueriesPages.MonthFetch.noData) [1, 2, 3]).1 = [1, 2, 3] :=
  rows_absent_and_run_continues
    (fun j => if j = 2 then QueriesPages.MonthFetch.row ⟨5, 10, 0, 3⟩ 7 4
              else QueriesPages.MonthFetch.noData)
    (fun j => if j = 2 then some (⟨5, 10, 0, 3⟩ : PerfRow) else none)
    (fun _ j => if j = 2 then some (⟨5, 10, 0, 3⟩ : PerfRow) else none)
    [1, 2, 3] ["a", "b"] (2, ⟨5, 10, 0, 3⟩, 7, 4) "a" 2 ⟨5, 10, 0, 3⟩
    (by decide) (by decide)

/-- C10: whenever the undimensioned totals query succeeds, a row is
returned even when one or both dimension-limited sub-queries fail with an
HttpError; the failed count is 0 in that row, so a 0 in the queries or
pages column is indistinguishable from a month whose sub-query response
had no rows. -/
theorem subquery_failure_reports_zero (first : PerfRow) (more : List PerfRow)
    (s s' : Nat) (qs ps : SubResult) :
    QueriesPages.get_monthly_performance_data (QueryResult.rows first more)
        (SubResult.err s) ps =
      QueriesPages.MonthFetch.row first 0 (QueriesPages.uniqueCount ps) ∧
    QueriesPages.get_monthly_performance_data (QueryResult.rows first more)
        qs (SubResult.err s') =
      QueriesPages.MonthFetch.row first (QueriesPages.uniqueCount qs) 0 ∧
    QueriesPages.get_monthly_performance_data (QueryResult.rows first more)
        (SubResult.err s) (SubResult.err s') =
      QueriesPages.MonthFetch.row first 0 0 ∧
    QueriesPages.get_monthly_performance_data (QueryResult.rows first more)
        (SubResult.err s) ps =
      QueriesPages.get_monthly_performance_data (QueryResult.rows first more)
        SubResult.noRows ps ∧
    QueriesPages.get_monthly_performance_data (QueryResult.rows first more)
        qs (SubResult.err s') =
      QueriesPages.get_monthly_performance_data (QueryResult.rows first more)
        qs SubResult.noRows :=
  ⟨rfl, rfl, rfl, rfl, rfl⟩

/-! ## Sort/group key deriver (queries-pages-analysis.py, get_sort_key)

Python strings are modelled as lists of characters, so that every string
operation used by get_sort_key (startswith, replace, split('.'),
urlparse().netloc) has a structurally recursive embedding with Python
semantics. -/

/-- A Python string, as its list of characters. -/
abbrev PyStr := List Char

/-- str.startswith: pyStartsWith s p is s.startswith(p). -/
def pyStartsWith : PyStr → PyStr → Bool
  | _, [] => true
  | [], _ :: _ => false
  | c :: cs, p :: ps => decide (c = p) && pyStartsWith cs ps

/-- str.replace(old, new) for nonempty old: replaces every non-overlapping
occurrence, scanning left to right.  The fuel argument bounds the number of
steps; the string's length always suffices since each step consumes at
least one character. -/
def pyReplaceFuel (old new : PyStr) : Nat → PyStr → PyStr
  | _, [] => []
  | 0, s => s
  | fuel + 1, c :: cs =>
    if pyStartsWith (c :: cs) old && !old.isEmpty then
      new ++ pyReplaceFuel old new fuel (List.drop (old.length - 1) cs)
    else
      c :: pyReplaceFuel old new fuel cs

/-- str.replace(old, new) for nonempty old. -/
def pyReplace (s old new : PyStr) : PyStr :=
  pyReplaceFuel old new s.length s

/-- str.split(sep) for a one-character separator: no collapsing of empty
fields, and the empty string splits to one empty field. -/
def pySplitChar (sep : Char) : PyStr → List PyStr
  | [] => [[]]
  | c :: cs =>
    let r := pySplitChar sep cs
    if c = sep then [] :: r
    else
      match r with
      | [] => [[c]]
      | h :: t => (c :: h) :: t

/-- urlparse(url).netloc for the URLs the scripts handle: the text between
the first "://" and the next "/", and empty when the URL has no "://". -/
def pyNetloc : PyStr → PyStr
  | [] => []
  | c :: cs =>
    if pyStartsWith (c :: cs) (':' :: '/' :: '/' :: []) then
      List.takeWhile (fun ch => ch ≠ '/') (List.drop 2 cs)
    else pyNetloc cs

/-- The known second-level suffix list of get_sort_key. -/
def secondLevelSuffixes : List PyStr :=
  ["co".toList, "com".toList, "org".toList, "net".toList, "gov".toList, "edu".toList]

/-- get_sort_key (queries-pages-analysis.py).  Python's negative indices
parts[-2], parts[-3] and the slices parts[-3:], parts[-2:] are read off the
reversed list, which is what they mean under the len(parts) > 2 guard. -/
def get_sort_key (site_url : PyStr) : PyStr × Nat × PyStr :=
  if pyStartsWith site_url "sc-domain:".toList then
    (pyReplace site_url "sc-domain:".toList [], 0, [])
  else
    let netloc := pyNetloc site_url
    let parts := pySplitChar '.' netloc
    let rev := parts.reverse
    let root_domain :=
      if 2 < parts.length ∧ rev.getD 1 [] ∈ secondLevelSuffixes ∧ 2 < (rev.getD 2 []).length then
        List.intercalate ['.'] (rev.take 3).reverse
      else if 2 < parts.length then
        List.intercalate ['.'] (rev.take 2).reverse
      else netloc
    if pyStartsWith netloc "www.".toList then (root_domain, 1, [])
    else (root_domain, 2, parts.getD 0 [])

/-- The claim's root-domain rule, amended with the condition the code
imposes on the third-from-last label: the root is the last three host
labels when there are more than two labels, the second-to-last label is a
known second-level suffix and the third-from-last label is longer than two
characters; otherwise the last two labels when there are more than two
labels; otherwise the whole host. -/
def claimRootDomain (netloc : PyStr) : PyStr :=
  match (pySplitChar '.' netloc).reverse with
  | tld :: sld :: third :: _ =>
    if sld ∈ secondLevelSuffixes ∧ 2 < third.length then
      List.intercalate ['.'] [third, sld, tld]
    else
      List.intercalate ['.'] [sld, tld]
  | _ => netloc

/-- The claim's sort-key rule with the amended root-domain rule: class 0
for sc-domain forms, class 1 for URL-prefix forms whose host starts with
www., class 2 with the first host label as subdomain otherwise. -/
def claimSortKey (site_url : PyStr) : PyStr × Nat × PyStr :=
  if pyStartsWith site_url "sc-domain:".toList then
    (pyReplace site_url "sc-domain:".toList [], 0, [])
  else
    let netloc := pyNetloc site_url
    if pyStartsWith netloc "www.".toList then (claimRootDomain netloc, 1, [])
    else (claimRootDomain netloc, 2, (pySplitChar '.' netloc).getD 0 [])

theorem code_root_eq_claim (netloc : PyStr) :
    (if 2 < (pySplitChar '.' netloc).length ∧
        (pySplitChar '.' netloc).reverse.getD 1 [] ∈ secondLevelSuffixes ∧
        2 < ((pySplitChar '.' netloc).reverse.getD 2 []).length then
      List.intercalate ['.'] ((pySplitChar '.' netloc).reverse.take 3).reverse
    else if 2 < (pySplitChar '.' netloc).length then
      List.intercalate ['.'] ((pySplitChar '.' netloc).reverse.take 2).reverse
    else netloc) = claimRootDomain netloc := by
  have hlen : (pySplitChar '.' netloc).length = (pySplitChar '.' netloc).reverse.length :=
    (List.length_reverse _).symm
  simp only [claimRootDomain]
  rcases hrev : (pySplitChar '.' netloc).reverse with _ | ⟨a, _ | ⟨b, _ | ⟨c, rest⟩⟩⟩ <;>
    rw [hrev] at hlen <;> simp only [List.length_nil, List.length_cons] at hlen
  · rw [if_neg (by omega), if_neg (by omega)]
  · rw [if_neg (fun h => by omega), if_neg (by omega)]
  · rw [if_neg (fun h => by omega), if_neg (by omega)]
  · have h3 : 2 < (pySplitChar '.' netloc).length := by omega
    simp only [h3, true_and, List.getD_cons_succ, List.getD_cons_zero, if_true]
    split <;> rfl

/-- The general equivalence between get_sort_key and the amended claim
rule. -/
theorem get_sort_key_eq_claim (site_url : PyStr) :
    get_sort_key site_url = claimSortKey site_url := by
  unfold get_sort_key claimSortKey
  split
  · rfl
  · simp only [code_root_eq_claim]

/-- C5 (amended): the sort-key deriver agrees everywhere with the claim's
rule once the root-domain rule also requires the third-from-last label to
be longer than two characters (and keeps the whole host when the host has
at most two labels); the claim's three examples hold as stated. -/
theorem get_sort_key_spec (site_url : PyStr) :
    get_sort_key site_url = claimSortKey site_url ∧
    get_sort_key "sc-domain:example.co.uk".toList = ("example.co.uk".toList, 0, ([] : PyStr)) ∧
    get_sort_key "https://www.example.co.uk/".toList = ("example.co.uk".toList, 1, ([] : PyStr)) ∧
    get_sort_key "https://blog.example.co.uk/".toList = ("example.co.uk".toList, 2, "blog".toList) :=
  ⟨get_sort_key_eq_claim site_url, by decide, by decide, by decide⟩

/-- Counterexample to C5 as stated: for https://ab.co.uk/ the host's
second-to-last label is the known suffix co, so the claim puts the root at
the last three labels ab.co.uk; but the code additionally requires the
third-from-last label to be longer than two characters, and ab has only
two, so get_sort_key returns root co.uk. -/
theorem get_sort_key_counterexample :
    (pySplitChar '.' (pyNetloc "https://ab.co.uk/".toList)).reverse.getD 1 [] = "co".toList ∧
    "co".toList ∈ secondLevelSuffixes ∧
    2 < (pySplitChar '.' (pyNetloc "https://ab.co.uk/".toList)).length ∧
    get_sort_key "https://ab.co.uk/".toList = ("co.uk".toList, 2, "ab".toList) ∧
    get_sort_key "https://ab.co.uk/".toList ≠ ("ab.co.uk".toList, 2, "ab".toList) := by
  refine ⟨?_, ?_, ?_, ?_, ?_⟩ <;> decide

/-! ## Yearly aggregation (generate_gsc_wrapped.py, main)

The top page / top query computation is
df.groupby(key)[clicks].sum().nlargest(1): pandas groupby sorts the group
keys ascending (sort=True default), and Series.nlargest(1) keeps the first
occurrence of the maximum in series order.  String comparison is
code-point lexicographic, embedded below. -/

/-- One raw row of the dimensioned query (dimensions date, query, page)
with its click count; impressions/ctr/position do not enter the top
page/query computation. -/
structure RawRow where
  date : PyStr
  query : PyStr
  page : PyStr
  clicks : Nat
deriving DecidableEq

/-- Python string comparison s <= t: code-point lexicographic. -/
def lexLe : PyStr → PyStr → Bool
  | [], _ => true
  | _ :: _, [] => false
  | a :: as, b :: bs => if a < b then true else if b < a then false else lexLe as bs

theorem lexLe_refl (s : PyStr) : lexLe s s = true := by
  induction s with
  | nil => rfl
  | cons a as ih =>
    unfold lexLe
    simp only [if_neg (lt_irrefl a)]
    exact ih

theorem lexLe_total (s : PyStr) : ∀ t, lexLe s t = true ∨ lexLe t s = true := by
  induction s with
  | nil => intro t; exact Or.inl rfl
  | cons a as ih =>
    intro t
    cases t with
    | nil => exact Or.inr rfl
    | cons b bs =>
      unfold lexLe
      rcases lt_trichotomy a b with h | h | h
      · left; rw [if_pos h]
      · subst h
        simp only [if_neg (lt_irrefl a)]
        exact ih bs
      · right; rw [if_pos h]

theorem lexLe_trans (s : PyStr) :
    ∀ t u, lexLe s t = true → lexLe t u = true → lexLe s u = true := by
  induction s with
  | nil => intro t u _ _; rfl
  | cons a as ih =>
    intro t u h1 h2
    cases t with
    | nil => simp [lexLe] at h1
    | cons b bs =>
      cases u with
      | nil => simp [lexLe] at h2
      | cons c cs =>
        unfold lexLe at h1 h2 ⊢
        rcases lt_trichotomy a b with hab | hab | hab
        · rcases lt_trichotomy b c with hbc | hbc | hbc
          · rw [if_pos (lt_trans hab hbc)]
          · subst hbc; rw [if_pos hab]
          · rw [if_neg (lt_asymm hbc), if_pos hbc] at h2
            exact absurd h2 (by simp)
        · subst hab
          simp only [if_neg (lt_irrefl a)] at h1
          rcases lt_trichotomy a c with hac | hac | hac
          · rw [if_pos hac]
          · subst hac
            simp only [if_neg (lt_irrefl a)] at h2 ⊢
            exact ih bs cs h1 h2
          · rw [if_neg (lt_asymm hac), if_pos hac] at h2
            exact absurd h2 (by simp)
        · rw [if_neg (lt_asymm hab), if_pos hab] at h1
          exact absurd h1 (by simp)

instance lexLeIsTotal : IsTotal PyStr fun x y => lexLe x y = true :=
  ⟨lexLe_total⟩

instance lexLeIsTrans : IsTrans PyStr fun x y => lexLe x y = true :=
  ⟨fun s t u => lexLe_trans s t u⟩

/-- Total clicks of the group with the given key value:
groupby(key)[clicks].sum() restricted to one key. -/
def totalClicks (key : RawRow → PyStr) (rows : List RawRow) (k : PyStr) : Nat :=
  ((rows.filter (fun r => key r == k)).map RawRow.clicks).sum

/-- The distinct group keys of groupby(key), sorted ascending as pandas
does with its default sort=True. -/
def groupKeys (key : RawRow → PyStr) (rows : List RawRow) : List PyStr :=
  List.insertionSort (fun x y => lexLe x y = true) (rows.map key).dedup

/-- groupby(key)[clicks].sum(): one (key, total) entry per distinct key,
in ascending key order. -/
def groupSum (key : RawRow → PyStr) (rows : List RawRow) : List (PyStr × Nat) :=
  (groupKeys key rows).map (fun k => (k, totalClicks key rows k))

/-- The left fold of Series.nlargest(1, keep=first) over a series: the
running best is replaced only by a strictly larger value, so the first
occurrence of the maximum in series order wins. -/
def selectFirstMax (x : PyStr × Nat) (xs : List (PyStr × Nat)) : PyStr × Nat :=
  xs.foldl (fun best y => if best.2 < y.2 then y else best) x

/-- Series.nlargest(1) with keep=first: none on an empty series. -/
def nlargest1 : List (PyStr × Nat) → Option (PyStr × Nat)
  | [] => none
  | x :: xs => some (selectFirstMax x xs)

/-- Top page by clicks (generate_gsc_wrapped.py main, step 2):
df.groupby(page)[clicks].sum().nlargest(1), N/A when empty. -/
def top_page (rows : List RawRow) : PyStr :=
  match nlargest1 (groupSum RawRow.page rows) with
  | some t => t.1
  | none => "N/A".toList

/-- Top query by clicks (generate_gsc_wrapped.py main, step 3). -/
def top_query (rows : List RawRow) : PyStr :=
  match nlargest1 (groupSum RawRow.query rows) with
  | some t => t.1
  | none => "N/A".toList

theorem selectFirstMax_mem (xs : List (PyStr × Nat)) :
    ∀ x, selectFirstMax x xs ∈ x :: xs := by
  induction xs with
  | nil => intro x; simp [selectFirstMax]
  | cons y ys ih =>
    intro x
    show selectFirstMax (if x.2 < y.2 then y else x) ys ∈ x :: y :: ys
    rcases List.mem_cons.mp (ih (if x.2 < y.2 then y else x)) with h | h
    · rw [h]
      split
      · simp
      · simp
    · exact List.mem_cons_of_mem x (List.mem_cons_of_mem y h)

theorem le_selectFirstMax_acc (xs : List (PyStr × Nat)) :
    ∀ x, x.2 ≤ (selectFirstMax x xs).2 := by
  induction xs with
  | nil => intro x; simp [selectFirstMax]
  | cons y ys ih =>
    intro x
    show x.2 ≤ (selectFirstMax (if x.2 < y.2 then y else x) ys).2
    have h := ih (if x.2 < y.2 then y else x)
    by_cases hxy : x.2 < y.2
    · rw [if_pos hxy] at h ⊢
      exact le_trans (le_of_lt hxy) h
    · rw [if_neg hxy] at h ⊢
      exact h

theorem le_selectFirstMax (xs : List (PyStr × Nat)) :
    ∀ x z, z ∈ x :: xs → z.2 ≤ (selectFirstMax x xs).2 := by
  induction xs with
  | nil =>
    intro x z hz
    rcases List.mem_cons.mp hz with h | h
    · rw [h]; simp [selectFirstMax]
    · simp at h
  | cons y ys ih =>
    intro x z hz
    show z.2 ≤ (selectFirstMax (if x.2 < y.2 then y else x) ys).2
    have hacc := le_selectFirstMax_acc ys (if x.2 < y.2 then y else x)
    rcases List.mem_cons.mp hz with h | h
    · rw [h]
      by_cases hxy : x.2 < y.2
      · rw [if_pos hxy] at hacc ⊢
        exact le_trans (le_of_lt hxy) hacc
      · rw [if_neg hxy] at hacc ⊢
        exact hacc
    · rcases List.mem_cons.mp h with h | h
      · rw [h]
        by_cases hxy : x.2 < y.2
        · rw [if_pos hxy] at hacc ⊢
          exact hacc
        · rw [if_neg hxy] at hacc ⊢
          exact le_trans (le_of_not_lt hxy) hacc
      · exact ih (if x.2 < y.2 then y else x) z (List.mem_cons_of_mem _ h)

theorem selectFirstMax_tie (xs : List (PyStr × Nat)) :
    ∀ x, List.Pairwise (fun a b : PyStr × Nat => lexLe a.1 b.1 = true) (x :: xs) →
      ∀ z ∈ x :: xs, z.2 = (selectFirstMax x xs).2 →
        lexLe (selectFirstMax x xs).1 z.1 = true := by
  induction xs with
  | nil =>
    intro x _ z hz hz2
    rcases List.mem_cons.mp hz with h | h
    · rw [h]
      exact lexLe_refl _
    · simp at h
  | cons y ys ih =>
    intro x hp z hz hz2
    have hxy : lexLe x.1 y.1 = true := (List.pairwise_cons.mp hp).1 y (by simp)
    have hxys : ∀ w ∈ ys, lexLe x.1 w.1 = true :=
      fun w hw => (List.pairwise_cons.mp hp).1 w (List.mem_cons_of_mem y hw)
    have htail : List.Pairwise (fun a b : PyStr × Nat => lexLe a.1 b.1 = true) (y :: ys) :=
      (List.pairwise_cons.mp hp).2
    have hacc : List.Pairwise (fun a b : PyStr × Nat => lexLe a.1 b.1 = true)
        ((if x.2 < y.2 then y else x) :: ys) := by
      by_cases hxy2 : x.2 < y.2
      · rw [if_pos hxy2]
        exact htail
      · rw [if_neg hxy2]
        exact List.pairwise_cons.mpr ⟨hxys, (List.pairwise_cons.mp htail).2⟩
    have hconv : selectFirstMax x (y :: ys) = selectFirstMax (if x.2 < y.2 then y else x) ys := rfl
    rw [hconv] at hz2 ⊢
    have haccle := le_selectFirstMax_acc ys (if x.2 < y.2 then y else x)
    rcases List.mem_cons.mp hz with h | h
    · -- z = x
      by_cases hxy2 : x.2 < y.2
      · have hacc2 : (if x.2 < y.2 then y else x).2 = y.2 := by rw [if_pos hxy2]
        rw [h] at hz2
        omega
      · refine ih (if x.2 < y.2 then y else x) hacc z ?_ hz2
        rw [if_neg hxy2, h]
        simp
    · rcases List.mem_cons.mp h with h | h
      · -- z = y
        by_cases hxy2 : x.2 < y.2
        · refine ih (if x.2 < y.2 then y else x) hacc z ?_ hz2
          rw [if_pos hxy2, h]
          simp
        · have hacc2 : (if x.2 < y.2 then y else x).2 = x.2 := by rw [if_neg hxy2]
          have hx2 : x.2 = (selectFirstMax (if x.2 < y.2 then y else x) ys).2 := by
            rw [h] at hz2
            omega
          have hres_x := ih (if x.2 < y.2 then y else x) hacc x (by rw [if_neg hxy2]; simp) hx2
          rw [h]
          exact lexLe_trans _ _ _ hres_x hxy
      · exact ih (if x.2 < y.2 then y else x) hacc z (List.mem_cons_of_mem _ h) hz2

theorem mem_groupKeys (key : RawRow → PyStr) (rows : List RawRow) (k : PyStr) :
    k ∈ groupKeys key rows ↔ k ∈ rows.map key := by
  unfold groupKeys
  rw [(List.perm_insertionSort _ _).mem_iff, List.mem_dedup]

theorem groupSum_pairwise (key : RawRow → PyStr) (rows : List RawRow) :
    List.Pairwise (fun a b : PyStr × Nat => lexLe a.1 b.1 = true) (groupSum key rows) := by
  unfold groupSum
  rw [List.pairwise_map]
  exact List.sorted_insertionSort _ _

theorem nlargest1_groupSum_spec (key : RawRow → PyStr) (rows : List RawRow) (k : PyStr)
    (hk : k ∈ rows.map key) :
    ∃ t, nlargest1 (groupSum key rows) = some t ∧
      t.1 ∈ rows.map key ∧
      t.2 = totalClicks key rows t.1 ∧
      totalClicks key rows k ≤ t.2 ∧
      (totalClicks key rows k = t.2 → lexLe t.1 k = true) := by
  have hkg : k ∈ groupKeys key rows := (mem_groupKeys key rows k).mpr hk
  have hkmem : (k, totalClicks key rows k) ∈ groupSum key rows :=
    List.mem_map_of_mem _ hkg
  rcases hgg : groupSum key rows with _ | ⟨g, gs⟩
  · rw [hgg] at hkmem
    simp at hkmem
  · rw [hgg] at hkmem
    refine ⟨selectFirstMax g gs, rfl, ?_, ?_, ?_, ?_⟩
    · have hm : selectFirstMax g gs ∈ groupSum key rows := by
        rw [hgg]; exact selectFirstMax_mem gs g
      unfold groupSum at hm
      rcases List.mem_map.mp hm with ⟨k', hk', heq⟩
      rw [← heq]
      exact (mem_groupKeys key rows k').mp hk'
    · have hm : selectFirstMax g gs ∈ groupSum key rows := by
        rw [hgg]; exact selectFirstMax_mem gs g
      unfold groupSum at hm
      rcases List.mem_map.mp hm with ⟨k', _, heq⟩
      rw [← heq]
    · exact le_selectFirstMax gs g (k, totalClicks key rows k) hkmem
    · intro heq
      have hp := groupSum_pairwise key rows
      rw [hgg] at hp
      exact selectFirstMax_tie gs g hp (k, totalClicks key rows k) hkmem heq

/-- The claim's scenario rows: clicks 10 for /a, 30 for /b, 30 for /c. -/
def scenarioRows : List RawRow :=
  [⟨[], [], "/a".toList, 10⟩, ⟨[], [], "/b".toList, 30⟩, ⟨[], [], "/c".toList, 30⟩]

/-- C6 (amended): the yearly aggregator's top page and top query are the
page/query with the greatest total clicks, but a tie on total clicks is
won by the lexicographically smallest page/query string — pandas sorts the
group keys ascending and nlargest keeps the first occurrence of the
maximum in the sorted series — not by the first key encountered in row
order; the claim's scenario rows 10:/a, 30:/b, 30:/c still yield top page
/b. -/
theorem top_by_clicks_spec (rows : List RawRow) (kp kq : PyStr)
    (hkp : kp ∈ rows.map RawRow.page) (hkq : kq ∈ rows.map RawRow.query) :
    (top_page rows ∈ rows.map RawRow.page ∧
     totalClicks RawRow.page rows kp ≤ totalClicks RawRow.page rows (top_page rows) ∧
     (totalClicks RawRow.page rows kp = totalClicks RawRow.page rows (top_page rows) →
       lexLe (top_page rows) kp = true)) ∧
    (top_query rows ∈ rows.map RawRow.query ∧
     totalClicks RawRow.query rows kq ≤ totalClicks RawRow.query rows (top_query rows) ∧
     (totalClicks RawRow.query rows kq = totalClicks RawRow.query rows (top_query rows) →
       lexLe (top_query rows) kq = true)) ∧
    top_page scenarioRows = "/b".toList := by
  refine ⟨?_, ?_, by decide⟩
  · obtain ⟨t, ht, h1, h2, h3, h4⟩ := nlargest1_groupSum_spec RawRow.page rows kp hkp
    have htp : top_page rows = t.1 := by simp only [top_page, ht]
    rw [htp, ← h2]
    exact ⟨h1, h3, h4⟩
  · obtain ⟨t, ht, h1, h2, h3, h4⟩ := nlargest1_groupSum_spec RawRow.query rows kq hkq
    have htq : top_query rows = t.1 := by simp only [top_query, ht]
    rw [htq, ← h2]
    exact ⟨h1, h3, h4⟩

/-- Witness for C6 on the claim's scenario rows, with tied page /c and
query key the empty string. -/
theorem top_by_clicks_spec_witness :
    (top_page scenarioRows ∈ scenarioRows.map RawRow.page ∧
     totalClicks RawRow.page scenarioRows "/c".toList ≤
       totalClicks RawRow.page scenarioRows (top_page scenarioRows) ∧
     (totalClicks RawRow.page scenarioRows "/c".toList =
       totalClicks RawRow.page scenarioRows (top_page scenarioRows) →
       lexLe (top_page scenarioRows) "/c".toList = true)) ∧
    (top_query scenarioRows ∈ scenarioRows.map RawRow.query ∧
     totalClicks RawRow.query scenarioRows [] ≤
       totalClicks RawRow.query scenarioRows (top_query scenarioRows) ∧
     (totalClicks RawRow.query scenarioRows [] =
       totalClicks RawRow.query scenarioRows (top_query scenarioRows) →
       lexLe (top_query scenarioRows) [] = true)) ∧
    top_page scenarioRows = "/b".toList :=
  top_by_clicks_spec scenarioRows "/c".toList [] (by decide) (by decide)

/-- Counterexample to C6 as stated: with rows 30:/c, 30:/b, 10:/a the first
page encountered among the tied click totals is /c, but the aggregator
returns /b: group keys are sorted, so the lexicographically smallest tied
key wins, not the first encountered in stable row order. -/
theorem top_page_counterexample :
    top_page [⟨[], [], "/c".toList, 30⟩, ⟨[], [], "/b".toList, 30⟩, ⟨[], [], "/a".toList, 10⟩] =
      "/b".toList ∧
    ("/b".toList : PyStr) ≠ "/c".toList :=
  ⟨by decide, by decide⟩

/-! ## CSV artifacts and number formatting (both analysis scripts, main)

A CSV cell is a string, an integer, or a raw rational (a float that to_csv
writes unformatted).  Python floats are modelled as exact rationals; the
.2% and .2f format specifiers round half to even at two decimals, which
agrees with Python at binary-representable values such as the concrete
ones below. -/

inductive Cell where
  | str (s : String)
  | nat (n : Nat)
  | rat (q : Rat)
deriving DecidableEq

/-- Round q * scale to the nearest integer, half to even, computed on the
fraction's numerator and denominator (for nonnegative q). -/
def scaledRoundHalfEven (q : Rat) (scale : Nat) : Int :=
  let n := q.num * scale
  let d := (q.den : Int)
  let f := Int.fdiv n d
  let r := n - f * d
  if 2 * r < d then f
  else if d < 2 * r then f + 1
  else if f % 2 = 0 then f else f + 1

/-- Two-digit zero-padded rendering of 0 <= n < 100. -/
def twoDigits (n : Int) : String :=
  if n < 10 then "0" ++ toString n else toString n

/-- Python format(x, '.2%') for nonnegative x: x as a percentage with two
decimals, e.g. 0.125 to 12.50%. -/
def formatPercent2 (q : Rat) : String :=
  let n := scaledRoundHalfEven q 10000
  toString (n / 100) ++ "." ++ twoDigits (n % 100) ++ "%"

/-- Python format(x, '.2f') for nonnegative x. -/
def formatFixed2 (q : Rat) : String :=
  let n := scaledRoundHalfEven q 100
  toString (n / 100) ++ "." ++ twoDigits (n % 100)

/-- One aggregated (site, month) entry of account-wide-analysis.py, as
appended to all_data in main(). -/
structure AwRow where
  site_url : String
  month : String
  clicks : Nat
  impressions : Nat
  ctr : Rat
  position : Rat
deriving DecidableEq

/-- One aggregated (site, month) entry of queries-pages-analysis.py after
reindexing by the literal column_order. -/
structure QpRow where
  site_url : String
  month : String
  clicks : Nat
  impressions : Nat
  ctr : Rat
  position : Rat
  queries : Nat
  pages : Nat
deriving DecidableEq

namespace AccountWide

/-- The CSV header of account-wide-analysis.py: the DataFrame columns, in
the insertion order of the dict literals appended to all_data. -/
def csvHeader : List String :=
  ["site_url", "month", "clicks", "impressions", "ctr", "position"]

/-- One CSV data row as written by account-wide-analysis.py: before
df.to_csv, main() reassigns the ctr column through format .2% and the
position column through format .2f, so those two cells reach the CSV as
formatted strings; clicks and impressions stay plain integers. -/
def csvRecord (r : AwRow) : List Cell :=
  [Cell.str r.site_url, Cell.str r.month, Cell.nat r.clicks, Cell.nat r.impressions,
   Cell.str (formatPercent2 r.ctr), Cell.str (formatFixed2 r.position)]

end AccountWide

namespace QueriesPages

/-- The CSV header of queries-pages-analysis.py: the literal column_order
list the DataFrame is reindexed with before df.to_csv. -/
def csvHeader : List String :=
  ["site_url", "month", "clicks", "impressions", "ctr", "position", "queries", "pages"]

/-- One CSV data row as written by queries-pages-analysis.py: df.to_csv is
called on the unformatted DataFrame (the .2% and .2f formatting is applied
only to the separate copy used for the HTML report), so every numeric cell
is raw. -/
def csvRecord (r : QpRow) : List Cell :=
  [Cell.str r.site_url, Cell.str r.month, Cell.nat r.clicks, Cell.nat r.impressions,
   Cell.rat r.ctr, Cell.rat r.position, Cell.nat r.queries, Cell.nat r.pages]

end QueriesPages

/-- C7 (amended): both CSV artifacts carry the claimed header columns in
the claimed order, and the queries-pages CSV writes every numeric field
unformatted (ctr and position as raw fractions, counts as plain integers,
no thousands separators), so it can be reloaded as a cache; the
account-wide CSV, however, writes ctr as a two-decimal percentage string
and position as a two-decimal fixed string, as the concrete row with
ctr 1/8 and position 5/2 shows. -/
theorem csv_columns_spec (r : AwRow) (p : QpRow) :
    QueriesPages.csvHeader =
      ["site_url", "month", "clicks", "impressions", "ctr", "position", "queries", "pages"] ∧
    AccountWide.csvHeader =
      ["site_url", "month", "clicks", "impressions", "ctr", "position"] ∧
    QueriesPages.csvRecord p =
      [Cell.str p.site_url, Cell.str p.month, Cell.nat p.clicks, Cell.nat p.impressions,
       Cell.rat p.ctr, Cell.rat p.position, Cell.nat p.queries, Cell.nat p.pages] ∧
    AccountWide.csvRecord r =
      [Cell.str r.site_url, Cell.str r.month, Cell.nat r.clicks, Cell.nat r.impressions,
       Cell.str (formatPercent2 r.ctr), Cell.str (formatFixed2 r.position)] ∧
    AccountWide.csvRecord ⟨"https://example.com/", "2024-02", 1234567, 89012345, mkRat 1 8, mkRat 5 2⟩ =
      [Cell.str "https://example.com/", Cell.str "2024-02", Cell.nat 1234567,
       Cell.nat 89012345, Cell.str "12.50%", Cell.str "2.50"] :=
  ⟨rfl, rfl, rfl, rfl, by decide⟩

/-- Counterexample to C7 as stated: in account-wide-analysis.py the ctr
cell written to the CSV for a month with ctr 0.125 is the percentage
string 12.50%, not the raw fraction, and position 2.5 is written as the
fixed string 2.50. -/
theorem aw_csv_formats_counterexample :
    AccountWide.csvRecord ⟨"https://example.com/", "2024-02", 100, 800, mkRat 1 8, mkRat 5 2⟩ =
      [Cell.str "https://example.com/", Cell.str "2024-02", Cell.nat 100, Cell.nat 800,
       Cell.str "12.50%", Cell.str "2.50"] ∧
    Cell.str "12.50%" ≠ Cell.rat (mkRat 1 8) ∧
    Cell.str "2.50" ≠ Cell.rat (mkRat 5 2) :=
  ⟨by decide, by decide, by decide⟩

/-! ## Output stage control flow (C9)

The try/except structure around the CSV and HTML writes, for
generate_gsc_wrapped.py and queries-pages-analysis.py.  csvOk and htmlOk
say whether the respective filesystem write would succeed (raising
IOError/PermissionError when false). -/

/-- Which artifact writes were attempted and which succeeded. -/
structure OutputOutcome where
  csvAttempted : Bool
  csvWritten : Bool
  htmlAttempted : Bool
  htmlWritten : Bool
deriving DecidableEq

namespace Wrapped

/-- The output stage of generate_gsc_wrapped.py main(): the CSV write is
wrapped in its own try/except IOError that logs and falls through, the
analysis continues on the in-memory dataframe, and the HTML write has its
own try/except IOError; each artifact is attempted regardless of the
other's outcome. -/
def outputStage (csvOk htmlOk : Bool) : OutputOutcome :=
  { csvAttempted := true, csvWritten := csvOk,
    htmlAttempted := true, htmlWritten := htmlOk }

end Wrapped

namespace QueriesPages

/-- The output stage of queries-pages-analysis.py main(): with --use-cache
and a cached CSV, no CSV is written and the HTML is generated from the
cached DataFrame; otherwise the CSV is written first, and a PermissionError
there makes main() return before the HTML block, so no HTML write is even
attempted; when the CSV write succeeds the HTML write is attempted with
its own try/except PermissionError. -/
def outputStage (useCache csvOk htmlOk : Bool) : OutputOutcome :=
  if useCache then
    { csvAttempted := false, csvWritten := false,
      htmlAttempted := true, htmlWritten := htmlOk }
  else if csvOk then
    { csvAttempted := true, csvWritten := true,
      htmlAttempted := true, htmlWritten := htmlOk }
  else
    { csvAttempted := true, csvWritten := false,
      htmlAttempted := false, htmlWritten := false }

end QueriesPages

/-- C9 (amended): in generate_gsc_wrapped.py the two artifact writes are
independent — each is attempted and succeeds exactly when its own write
succeeds, whatever happens to the other; in queries-pages-analysis.py the
CSV outcome never depends on the HTML outcome, but the HTML artifact is
produced only when the CSV write succeeded (or was skipped via
--use-cache). -/
theorem output_stage_independence :
    ∀ c h : Bool,
      (Wrapped.outputStage c h).csvWritten = c ∧
      (Wrapped.outputStage c h).htmlWritten = h ∧
      (Wrapped.outputStage c h).csvAttempted = true ∧
      (Wrapped.outputStage c h).htmlAttempted = true ∧
      (QueriesPages.outputStage false c h).csvWritten = c ∧
      (QueriesPages.outputStage false c h).htmlWritten = (c && h) ∧
      (QueriesPages.outputStage true c h).htmlWritten = h := by
  decide

/-- Counterexample to C9 as stated: in queries-pages-analysis.py, when the
CSV write fails with PermissionError and the HTML write would succeed,
main() returns before the HTML block: the HTML artifact is not even
attempted, so HTML success depends on CSV success. -/
theorem qp_html_depends_on_csv_counterexample :
    (QueriesPages.outputStage false false true).htmlAttempted = false ∧
    (QueriesPages.outputStage false false true).htmlWritten = false ∧
    (Wrapped.outputStage false true).htmlWritten = true := by
  decide

end GscExporter
